import Mathlib

/-
Verification of the realtime connection gateway
(jmau949/generic-fastify-websocket-server).

Shallow embedding of:
- the `/ws` websocket controller (auth gate, client registry, broadcast
  fan-out, eviction),
- the socket.io authentication middleware (correlation id derivation and
  manual cookie parsing),
- the socket.io error-handler plugin (normalized error frames).

Machine strings are Lean `String`s, the JS `Set<WebSocket>` is a list of
client records keyed by a transport-assigned socket id (JS `Set` identity =
socket object identity; iteration order = insertion order), and the
fallible external verifier is a function into an explicit result type.
-/

namespace WsGateway

/-- Result of a successful token verification: the verified identity.
`validateToken` resolves to an object whose `sub` field is the subject id. -/
structure Identity where
  sub : String
deriving Repr, DecidableEq

/-- Outcome of `await validateToken(token)` as observed by the controller:
the promise resolves to a truthy user (`ok`), resolves to a falsy value
(`invalid`), or rejects/throws (`errored`, caught by the surrounding
try/catch). -/
inductive VerifyResult where
  | ok (u : Identity)
  | invalid
  | errored
deriving Repr, DecidableEq

/-- An admitted client as stored by the controller: the `Set<WebSocket>`
entry (identified by its transport socket id) together with the verified
subject captured in the connection handler's closure (`user.sub`). -/
structure ClientConn where
  sid : Nat
  sub : String
deriving Repr, DecidableEq

/-- WebSocket.OPEN ready-state constant of the `ws` library. -/
def WS_OPEN : Nat := 1

/-- JS `clients.add(socket)`: appends in insertion order; adding an element
already in the set is a no-op (Set identity, here the socket id). -/
def setAddConn (clients : List ClientConn) (c : ClientConn) : List ClientConn :=
  if clients.any (fun x => x.sid == c.sid) then clients else clients ++ [c]

/-- JS `clients.delete(socket)` in the close handler (websocketController,
`socket.on("close", ...)`): removes the socket if present, no-op otherwise. -/
def evict (clients : List ClientConn) (sid : Nat) : List ClientConn :=
  clients.filter (fun c => c.sid != sid)

/-- Spec §3 connection lifecycle states. A connection appears in the
Registry iff its state is Authenticated; before admission it is Pending. -/
inductive ConnState where
  | pending
  | authenticated
  | closedConn
deriving Repr, DecidableEq

/-- State of the connection with identifier `sid` as observable from the
registry: in the registry means admitted (Authenticated), otherwise the
connection never completed admission (Pending). -/
def stateOf (clients : List ClientConn) (sid : Nat) : ConnState :=
  if clients.any (fun c => c.sid == sid) then ConnState.authenticated
  else ConnState.pending

/-- Outcome of one connection attempt: either the socket was closed with a
close code and reason string, or the connection was admitted for the given
verified subject. -/
inductive AdmissionOutcome where
  | rejected (closeCode : Nat) (closeReason : String)
  | admitted (sub : String)
deriving Repr, DecidableEq

/-- Connection handler of the `/ws` route (websocketController): reads
`req.cookies.authToken` (`none` models both a missing cookie header and a
missing `authToken` cookie; the JS truthiness test `if (!token)` also
rejects an empty-string cookie value), awaits `validateToken`, and on a
truthy user adds the socket to `clients`. A falsy user closes with
1008/"Invalid authentication token"; a thrown verification error is caught
and closes with 1008/"Authentication failed". Returns the outcome and the
updated client set. -/
def handleConnection (authCookie : Option String) (verify : String → VerifyResult)
    (clients : List ClientConn) (sid : Nat) : AdmissionOutcome × List ClientConn :=
  match authCookie with
  | none => (AdmissionOutcome.rejected 1008 "Missing authentication token", clients)
  | some token =>
    if token = "" then
      (AdmissionOutcome.rejected 1008 "Missing authentication token", clients)
    else
      match verify token with
      | VerifyResult.invalid =>
          (AdmissionOutcome.rejected 1008 "Invalid authentication token", clients)
      | VerifyResult.errored =>
          (AdmissionOutcome.rejected 1008 "Authentication failed", clients)
      | VerifyResult.ok u =>
          (AdmissionOutcome.admitted u.sub, setAddConn clients (ClientConn.mk sid u.sub))

/-- Lowercase hexadecimal digit, as emitted by JSON.stringify in \u escapes. -/
def hexDigit (n : Nat) : Char :=
  if n < 10 then Char.ofNat (48 + n) else Char.ofNat (87 + n)

/-- Escaping of one character performed by JSON.stringify inside a string
literal: quote and backslash are backslash-escaped, the two-character
escapes b/t/n/f/r are used for their control characters, any other control
character below U+0020 becomes a \u00xx escape, and everything else is
emitted verbatim. -/
def jsonEscapeChar (c : Char) : List Char :=
  if c = '"' then ['\\', '"']
  else if c = '\\' then ['\\', '\\']
  else if c = Char.ofNat 8 then ['\\', 'b']
  else if c = Char.ofNat 9 then ['\\', 't']
  else if c = Char.ofNat 10 then ['\\', 'n']
  else if c = Char.ofNat 12 then ['\\', 'f']
  else if c = Char.ofNat 13 then ['\\', 'r']
  else if c.toNat < 32 then
    ['\\', 'u', '0', '0', hexDigit (c.toNat / 16), hexDigit (c.toNat % 16)]
  else [c]

/-- JSON.stringify escaping of a whole string body. -/
def jsonEscape (s : String) : String :=
  String.mk (s.data.foldr (fun c acc => jsonEscapeChar c ++ acc) [])

/-- Embedding of JSON.stringify of the outbound frame object
`JSON.stringify({ user: user.sub, message: messageText })`: a two-property
object whose keys need no escaping. -/
def stringifyFrame (user msg : String) : String :=
  "\x7b\"user\":\"" ++ jsonEscape user ++ "\",\"message\":\"" ++ jsonEscape msg ++ "\"\x7d"

/-- One delivery attempt of the fan-out loop: the target socket and the
serialized payload handed to `client.send`. -/
structure Delivery where
  target : Nat
  payload : String
deriving Repr, DecidableEq

/-- Fan-out loop of the message handler (websocketController): for each
client in the set whose `readyState` is WebSocket.OPEN, send the serialized
frame. `ready` is the live transport ready-state of each socket. -/
def fanOut (clients : List ClientConn) (ready : Nat → Nat) (sub msg : String) :
    List Delivery :=
  (clients.filter (fun c => ready c.sid == WS_OPEN)).map
    (fun c => Delivery.mk c.sid (stringifyFrame sub msg))

/-- Fan-out with per-recipient delivery results. `ws`'s `WebSocket.send`
never raises synchronously on a socket that is not CONNECTING (the loop
only calls it after the OPEN check; transport failures surface via the
send callback or a later error event), so the loop body cannot throw and
each attempt happens regardless of other recipients' outcomes; `fails`
records which attempted deliveries ultimately fail. The Bool in each
result is true when the delivery succeeded. -/
def fanOutResults (clients : List ClientConn) (ready : Nat → Nat)
    (fails : Nat → Bool) (sub msg : String) : List (Delivery × Bool) :=
  (clients.filter (fun c => ready c.sid == WS_OPEN)).map
    (fun c => (Delivery.mk c.sid (stringifyFrame sub msg), !fails c.sid))

/-- Inbound transport events of one gateway process, processed to
completion one at a time by the single-threaded event loop: a connection
attempt (with its credential and the verifier's response), a message from
a socket, and a transport close. -/
inductive WsEvent where
  | connect (sid : Nat) (authCookie : Option String) (verify : String → VerifyResult)
  | message (sid : Nat) (raw : String)
  | closeEv (sid : Nat)

/-- Atomic processing of one event (the JS event loop runs each callback to
completion; the broadcast loop contains no await, so no other callback can
interleave with it). Returns the new client set and the deliveries sent
while processing the event. A message event broadcasts with the sender's
subject captured at admission; a message from a socket that is not in the
set (already evicted/never admitted) has no registered handler state and
sends nothing. -/
def wsStep (ready : Nat → Nat) (st : List ClientConn) (e : WsEvent) :
    List ClientConn × List Delivery :=
  match e with
  | WsEvent.connect sid cookie verify => ((handleConnection cookie verify st sid).2, [])
  | WsEvent.message sid raw =>
    match st.find? (fun c => c.sid == sid) with
    | some c => (st, fanOut st ready c.sub raw)
    | none => (st, [])
  | WsEvent.closeEv sid => (evict st sid, [])

/-- Run of a sequence of events, recording the deliveries of each. -/
def wsRun (ready : Nat → Nat) (st : List ClientConn) :
    List WsEvent → List ClientConn × List (List Delivery)
  | [] => (st, [])
  | e :: es =>
    let r1 := wsStep ready st e
    let r2 := wsRun ready r1.1 es
    (r2.1, r1.2 :: r2.2)

/-- Error value reaching the socket error handler. An `AppError` (the
recognized application error class of `utils/errorHandler`, whose fields
`message`, `errorCode` and `statusCode` are exactly the ones the handler
reads) or any other thrown value. -/
inductive SocketError where
  | app (message errorCode : String) (statusCode : Nat)
  | generic (message : String)
deriving Repr, DecidableEq

/-- Normalized error envelope emitted back to the client, together with
the event name (channel) it is emitted on. -/
structure ErrorFrame where
  channel : String
  message : String
  errorCode : String
  status : Nat
  socketId : String
  requestId : String
deriving Repr, DecidableEq

/-- Frame built by the error handler of the socket error-handler plugin
(`socket.emit("app:error", {...})`): a recognized AppError contributes its
own message/errorCode/statusCode, anything else gets the generic
"Internal server error"/"SOCKET_ERROR"/500; the frame always carries the
socket id and the connection's request id. The event name "app:error" is
deliberately distinct from ordinary application events. -/
def socketErrorFrame (socketId requestId : String) : SocketError → ErrorFrame
  | SocketError.app m ec st => ErrorFrame.mk "app:error" m ec st socketId requestId
  | SocketError.generic _ =>
      ErrorFrame.mk "app:error" "Internal server error" "SOCKET_ERROR" 500 socketId requestId

/-- The complete effect of the `socket.on("error", ...)` listener of the
error-handler plugin: it logs, emits exactly one normalized frame, and
performs no close/disconnect (second component: whether the handler closes
the connection). -/
def onSocketErrorEvent (socketId requestId : String) (e : SocketError) :
    List ErrorFrame × Bool :=
  ([socketErrorFrame socketId requestId e], false)

/-- Observable effect of one run of the message handler: the broadcast
deliveries, the client set afterwards, the error frames sent to the
client by the handler, and whether the handler closed the socket. -/
structure MessageEffect where
  deliveries : List Delivery
  clients : List ClientConn
  errorFrames : List ErrorFrame
  closesSocket : Bool
deriving Repr, DecidableEq

/-- Message handler of an admitted socket, with its try/catch
(websocketController, `socket.on("message", ...)`): when the body throws
(`raises`), the error is caught and the catch block runs only
`fastify.log.error(...)` — it sends nothing to any client, so the error
frames of this path are empty; in both branches the handler never closes
the socket and never mutates the client set. -/
def onMessage (raises : Bool) (clients : List ClientConn) (ready : Nat → Nat)
    (sub raw : String) : MessageEffect :=
  if raises then MessageEffect.mk [] clients [] false
  else MessageEffect.mk (fanOut clients ready sub raw) clients [] false

/-- Reattaches a leading character to the first piece of a split result. -/
def jsConsHead (c : Char) : List (List Char) → List (List Char)
  | [] => [[c]]
  | r :: rs => (c :: r) :: rs

/-- Worker for the embedding of JavaScript String.prototype.split with a
non-empty separator: the scan runs left to right; at a position where the
separator matches, the current piece is cut and the scan continues right
after the separator. `fuel` is a structural-recursion bound: every step
consumes at least one character, so any fuel of at least the string's
length yields the split (the fuel-exhausted and empty-input results
coincide on all reachable inputs). -/
def jsSplitFuel (sep : List Char) : Nat → List Char → List (List Char)
  | 0, s => [s]
  | _ + 1, [] => [[]]
  | fuel + 1, c :: rest =>
    if sep ≠ [] ∧ sep.isPrefixOf (c :: rest) then
      [] :: jsSplitFuel sep fuel ((c :: rest).drop sep.length)
    else
      jsConsHead c (jsSplitFuel sep fuel rest)

/-- Embedding of JavaScript String.prototype.split with a non-empty string
separator, on character lists (the socket.io plugin splits the cookie
header on "; " and each pair on "="). -/
def jsSplit (sep : List Char) (s : List Char) : List (List Char) :=
  jsSplitFuel sep s.length s

/-- Embedding of `Object.fromEntries(entries)` followed by a property
lookup: each entry array contributes key `e[0]` (split arrays are never
empty) and value `e[1]` (`undefined`, i.e. `none`, when the array has
fewer than two elements); a later entry with the same key overwrites an
earlier one, so the lookup finds the last matching entry. A `none` result
models JS `undefined`, whether the key is absent or its value undefined. -/
def fromEntriesGet (entries : List (List (List Char))) (key : List Char) :
    Option (List Char) :=
  match entries.reverse.find? (fun e => e.headD [] == key) with
  | none => none
  | some e => e[1]?

/-- Cookie lookup of the socket.io plugin:
`Object.fromEntries(cookieHeader.split("; ").map((c) => c.split("=")))`
followed by property access on the resulting object. -/
def parseCookieGet (header : List Char) (key : List Char) : Option (List Char) :=
  fromEntriesGet ((jsSplit [';', ' '] header).map (jsSplit ['='])) key

/-- Token actually handed to `validateToken` by the socket.io auth path:
the parsed `authToken` cookie value, unless it is falsy — the
`if (!token)` guard rejects both undefined and the empty string before the
verifier is ever called. -/
def tokenForVerifier (cookieHeader : List Char) : Option String :=
  match parseCookieGet cookieHeader "authToken".data with
  | none => none
  | some t => if t.isEmpty then none else some (String.mk t)

/-- Correlation id derivation of the socket.io auth middleware:
`(socket.handshake.headers["x-request-id"] as string) || uuidv4()` — the
JS `||` falls through to the freshly generated uuid both when the header
is absent and when it is present with a falsy (empty-string) value.
`fresh` is the uuid generated for this attempt. -/
def deriveRequestId (xRequestId : Option String) (fresh : String) : String :=
  match xRequestId with
  | some h => if h = "" then fresh else h
  | none => fresh

/-- Socket decorated by a successful run of the auth middleware: the
verified user (`(socket as any).user`) and the request id
(`(socket as any).requestId`) attached to the socket instance. -/
structure AuthedSocket where
  socketId : String
  requestId : String
  sub : String
deriving Repr, DecidableEq

/-- Outcome of the socket.io auth middleware for one handshake: `next` is
called with an error message, or with no argument after decorating the
socket. -/
inductive SocketAuthResult where
  | failed (message : String)
  | authed (s : AuthedSocket)
deriving Repr, DecidableEq

/-- The socket.io authentication middleware (plugins/socket.ts): the
request id is derived first and stored on the socket, then the cookie
header is parsed, the token validated, and on success user and request id
remain attached to the socket. Returns the middleware outcome together
with the request id determined for the attempt. -/
def socketAuth (verify : String → VerifyResult) (xRequestId : Option String)
    (cookieHeader : Option (List Char)) (fresh socketId : String) :
    SocketAuthResult × String :=
  match cookieHeader with
  | none =>
      (SocketAuthResult.failed "Missing authentication token", deriveRequestId xRequestId fresh)
  | some h =>
    match tokenForVerifier h with
    | none =>
        (SocketAuthResult.failed "Missing authentication token", deriveRequestId xRequestId fresh)
    | some t =>
      match verify t with
      | VerifyResult.invalid =>
          (SocketAuthResult.failed "Invalid authentication token", deriveRequestId xRequestId fresh)
      | VerifyResult.errored =>
          (SocketAuthResult.failed "Authentication failed", deriveRequestId xRequestId fresh)
      | VerifyResult.ok u =>
          (SocketAuthResult.authed
            (AuthedSocket.mk socketId (deriveRequestId xRequestId fresh) u.sub),
           deriveRequestId xRequestId fresh)

/-- Connection-scope logger context bound on the connection listener:
`fastify.log.child({ requestId, socketId, userId })`. -/
structure LogCtx where
  requestId : String
  socketId : String
  userId : String
deriving Repr, DecidableEq

/-- The log context built for an admitted socket. -/
def connectionLogCtx (s : AuthedSocket) : LogCtx :=
  LogCtx.mk s.requestId s.socketId s.sub

/-- Error frame sent for an admitted socket: the error-handler plugin
reads `(socket as any).requestId`, the admission-time value. -/
def connErrorFrame (s : AuthedSocket) (e : SocketError) : ErrorFrame :=
  socketErrorFrame s.socketId s.requestId e

/-- One cookie pair as it appears on the wire: `name=value`. -/
def renderCookiePair (p : String × String) : List Char :=
  p.1.data ++ '=' :: p.2.data

/-- A cookie header as the client sends it: pairs joined by "; ". -/
def renderCookies : List (String × String) → List Char
  | [] => []
  | [p] => renderCookiePair p
  | p :: q :: ps => renderCookiePair p ++ ';' :: ' ' :: renderCookies (q :: ps)

end WsGateway

namespace WsGateway

/-- Helper: a client set with no entry for `sid` is unchanged by `evict`. -/
theorem evict_of_not_mem (clients : List ClientConn) (sid : Nat)
    (habs : ∀ c ∈ clients, c.sid ≠ sid) : evict clients sid = clients := by
  unfold evict
  apply List.filter_eq_self.mpr
  intro c hc
  simpa using habs c hc

/-- Helper: under the registry invariant (socket ids are unique), eviction
removes exactly one entry when the id is present and none otherwise. -/
theorem length_evict (clients : List ClientConn) (sid : Nat)
    (hnd : (clients.map (fun c => c.sid)).Nodup) :
    (evict clients sid).length
      = clients.length - (if ∃ c ∈ clients, c.sid = sid then 1 else 0) := by
  induction clients with
  | nil => simp [evict]
  | cons a l ih =>
    simp only [List.map_cons, List.nodup_cons] at hnd
    by_cases ha : a.sid = sid
    · have habs : ∀ c ∈ l, c.sid ≠ sid := by
        intro c hc hcs
        exact hnd.1 (ha ▸ hcs ▸ List.mem_map_of_mem (fun c => c.sid) hc)
      have hself : evict l sid = l := evict_of_not_mem l sid habs
      have hexists : ∃ c ∈ a :: l, c.sid = sid := ⟨a, List.mem_cons_self a l, ha⟩
      simp only [hexists, if_pos]
      unfold evict at hself ⊢
      rw [List.filter_cons_of_neg (by simp [ha]), hself]
      simp
    · have hstep : evict (a :: l) sid = a :: evict l sid := by
        unfold evict
        rw [List.filter_cons_of_pos (by simp [ha])]
      rw [hstep]
      by_cases hex : ∃ c ∈ l, c.sid = sid
      · have hexists : ∃ c ∈ a :: l, c.sid = sid := by
          rcases hex with ⟨c, hc, hcs⟩
          exact ⟨c, List.mem_cons_of_mem a hc, hcs⟩
        have hlpos : 0 < l.length := by
          rcases hex with ⟨c, hc, _⟩
          exact List.length_pos.mpr (List.ne_nil_of_mem hc)
        simp only [hexists, if_pos, List.length_cons]
        rw [ih hnd.2]
        simp only [hex, if_pos]
        omega
      · have hnone : ¬ ∃ c ∈ a :: l, c.sid = sid := by
          rintro ⟨c, hc, hcs⟩
          rcases List.mem_cons.mp hc with h1 | h1
          · exact ha (h1 ▸ hcs)
          · exact hex ⟨c, h1, hcs⟩
        simp only [hnone, if_neg, not_false_iff, List.length_cons]
        rw [ih hnd.2]
        simp [hex]

/-- C7: eviction is idempotent — evicting the same id twice equals evicting
it once; evicting an id that was never admitted (also: before admission
completed) is a no-op; and the registry size decreases by exactly one when
the id is present and by zero otherwise (the model is a total function, so
no call can raise). -/
theorem evict_idempotent (clients : List ClientConn) (sid : Nat)
    (hnd : (clients.map (fun c => c.sid)).Nodup) :
    evict (evict clients sid) sid = evict clients sid
    ∧ ((∀ c ∈ clients, c.sid ≠ sid) → evict clients sid = clients)
    ∧ (evict clients sid).length
        = clients.length - (if ∃ c ∈ clients, c.sid = sid then 1 else 0) := by
  refine ⟨?_, fun h => evict_of_not_mem clients sid h, length_evict clients sid hnd⟩
  unfold evict
  apply List.filter_eq_self.mpr
  intro c hc
  exact (List.mem_filter.mp hc).2

/-- C7 witness: concrete two-client registry, evicting id 2. -/
theorem evict_idempotent_witness :
    ([ClientConn.mk 1 "u1", ClientConn.mk 2 "u2"].map (fun c => c.sid)).Nodup
    ∧ (evict (evict [ClientConn.mk 1 "u1", ClientConn.mk 2 "u2"] 2) 2
        = evict [ClientConn.mk 1 "u1", ClientConn.mk 2 "u2"] 2
      ∧ ((∀ c ∈ [ClientConn.mk 1 "u1", ClientConn.mk 2 "u2"], c.sid ≠ 2) →
          evict [ClientConn.mk 1 "u1", ClientConn.mk 2 "u2"] 2
            = [ClientConn.mk 1 "u1", ClientConn.mk 2 "u2"])
      ∧ (evict [ClientConn.mk 1 "u1", ClientConn.mk 2 "u2"] 2).length
          = ([ClientConn.mk 1 "u1", ClientConn.mk 2 "u2"] : List ClientConn).length
            - (if ∃ c ∈ [ClientConn.mk 1 "u1", ClientConn.mk 2 "u2"], c.sid = 2
               then 1 else 0)) :=
  ⟨by decide, evict_idempotent [ClientConn.mk 1 "u1", ClientConn.mk 2 "u2"] 2 (by decide)⟩

/-- Helper: on an accepted token and a fresh socket id, the connection
handler admits the subject and appends exactly one entry. -/
theorem handleConnection_ok_eq (verify : String → VerifyResult)
    (clients : List ClientConn) (sid : Nat) (token : String) (u : Identity)
    (htok : token ≠ "") (hvr : verify token = VerifyResult.ok u)
    (hfresh : ∀ c ∈ clients, c.sid ≠ sid) :
    handleConnection (some token) verify clients sid
      = (AdmissionOutcome.admitted u.sub, clients ++ [ClientConn.mk sid u.sub]) := by
  have hadd : setAddConn clients (ClientConn.mk sid u.sub)
      = clients ++ [ClientConn.mk sid u.sub] := by
    unfold setAddConn
    rw [if_neg]
    simp only [List.any_eq_true, beq_iff_eq, not_exists]
    intro c
    by_cases hc : c ∈ clients
    · simp [hc, hfresh c hc]
    · simp [hc]
  simp [handleConnection, htok, hvr, hadd]

/-- C2: a connection attempt whose token the verifier accepts adds exactly
one entry to the registry (the new registry is the old one with a single
appended entry), that entry carries the verified subject id, and the
connection's state is Authenticated afterwards. Freshness of the transport
socket id models JS object identity of the new socket. -/
theorem admit_verified_token (authCookie : Option String) (verify : String → VerifyResult)
    (clients : List ClientConn) (sid : Nat) (token : String) (u : Identity)
    (hck : authCookie = some token) (htok : token ≠ "")
    (hvr : verify token = VerifyResult.ok u)
    (hfresh : ∀ c ∈ clients, c.sid ≠ sid) :
    (handleConnection authCookie verify clients sid).1 = AdmissionOutcome.admitted u.sub
    ∧ (handleConnection authCookie verify clients sid).2
        = clients ++ [ClientConn.mk sid u.sub]
    ∧ (handleConnection authCookie verify clients sid).2.length = clients.length + 1
    ∧ stateOf (handleConnection authCookie verify clients sid).2 sid
        = ConnState.authenticated := by
  subst hck
  rw [handleConnection_ok_eq verify clients sid token u htok hvr hfresh]
  refine ⟨rfl, rfl, by simp, ?_⟩
  unfold stateOf
  rw [if_pos]
  simp

/-- C2 witness: a fresh connection with an accepted token for subject "u1"
joins an empty registry. -/
theorem admit_verified_token_witness :
    ((some "tok1" : Option String) = some "tok1" ∧ "tok1" ≠ ""
      ∧ (fun _ : String => VerifyResult.ok (Identity.mk "u1")) "tok1"
          = VerifyResult.ok (Identity.mk "u1")
      ∧ (∀ c ∈ ([] : List ClientConn), c.sid ≠ 7))
    ∧ ((handleConnection (some "tok1") (fun _ => VerifyResult.ok (Identity.mk "u1")) [] 7).1
        = AdmissionOutcome.admitted "u1"
      ∧ (handleConnection (some "tok1") (fun _ => VerifyResult.ok (Identity.mk "u1")) [] 7).2
          = [] ++ [ClientConn.mk 7 "u1"]
      ∧ (handleConnection (some "tok1") (fun _ => VerifyResult.ok (Identity.mk "u1")) [] 7).2.length
          = List.length ([] : List ClientConn) + 1
      ∧ stateOf
          (handleConnection (some "tok1") (fun _ => VerifyResult.ok (Identity.mk "u1")) [] 7).2 7
          = ConnState.authenticated) :=
  ⟨⟨rfl, by decide, rfl, by simp⟩,
    admit_verified_token (some "tok1") (fun _ => VerifyResult.ok (Identity.mk "u1"))
      [] 7 "tok1" (Identity.mk "u1") rfl (by decide) rfl (by simp)⟩

/-- C3: a connection attempt presenting no credential (no cookie header or
no `authToken` cookie, both surfacing as an absent `req.cookies.authToken`)
is rejected by closing the socket with policy-violation code 1008 and
reason "Missing authentication token", and the registry is unchanged. -/
theorem reject_missing_token (verify : String → VerifyResult)
    (clients : List ClientConn) (sid : Nat) :
    (handleConnection none verify clients sid).1
      = AdmissionOutcome.rejected 1008 "Missing authentication token"
    ∧ (handleConnection none verify clients sid).2 = clients := by
  exact ⟨rfl, rfl⟩

/-- C4: a connection attempt whose token the verifier rejects is closed
with policy-violation code 1008 and reason "Invalid authentication token",
and the registry is unchanged. -/
theorem reject_invalid_token (authCookie : Option String) (verify : String → VerifyResult)
    (clients : List ClientConn) (sid : Nat) (token : String)
    (hck : authCookie = some token) (htok : token ≠ "")
    (hvr : verify token = VerifyResult.invalid) :
    (handleConnection authCookie verify clients sid).1
      = AdmissionOutcome.rejected 1008 "Invalid authentication token"
    ∧ (handleConnection authCookie verify clients sid).2 = clients := by
  subst hck
  have hrun : handleConnection (some token) verify clients sid
      = (AdmissionOutcome.rejected 1008 "Invalid authentication token", clients) := by
    simp [handleConnection, htok, hvr]
  rw [hrun]
  exact ⟨rfl, rfl⟩

/-- C4 witness: a rejected token on a one-client registry. -/
theorem reject_invalid_token_witness :
    ((some "bad" : Option String) = some "bad" ∧ "bad" ≠ ""
      ∧ (fun _ : String => VerifyResult.invalid) "bad" = VerifyResult.invalid)
    ∧ ((handleConnection (some "bad") (fun _ => VerifyResult.invalid)
          [ClientConn.mk 1 "u1"] 9).1
        = AdmissionOutcome.rejected 1008 "Invalid authentication token"
      ∧ (handleConnection (some "bad") (fun _ => VerifyResult.invalid)
          [ClientConn.mk 1 "u1"] 9).2 = [ClientConn.mk 1 "u1"]) :=
  ⟨⟨rfl, by decide, rfl⟩,
    reject_invalid_token (some "bad") (fun _ => VerifyResult.invalid)
      [ClientConn.mk 1 "u1"] 9 "bad" rfl (by decide) rfl⟩

/-- C1: a broadcast from a currently-open member of the registry makes
exactly N delivery attempts, where N is the number of currently-open
registry members, the origin is among the attempted targets (no
self-exclusion), and the list of attempts is independent of which
recipients' deliveries fail — a failure on one recipient neither aborts
nor reduces the attempts to the others. -/
theorem fanout_completeness (clients : List ClientConn) (ready : Nat → Nat)
    (fails fails2 : Nat → Bool) (origin : ClientConn) (msg : String)
    (hmem : origin ∈ clients) (hopen : ready origin.sid = WS_OPEN) :
    (fanOutResults clients ready fails origin.sub msg).length
      = (clients.filter (fun c => ready c.sid == WS_OPEN)).length
    ∧ origin.sid ∈ (fanOutResults clients ready fails origin.sub msg).map
        (fun r => r.1.target)
    ∧ (fanOutResults clients ready fails origin.sub msg).map Prod.fst
        = (fanOutResults clients ready fails2 origin.sub msg).map Prod.fst := by
  refine ⟨by simp [fanOutResults], ?_, by simp [fanOutResults, List.map_map]⟩
  have hor : origin ∈ clients.filter (fun c => ready c.sid == WS_OPEN) :=
    List.mem_filter.mpr ⟨hmem, by simp [hopen]⟩
  simp only [fanOutResults, List.map_map]
  exact List.mem_map.mpr ⟨origin, hor, rfl⟩

/-- C1 witness: three admitted connections, one of them (id 3) no longer
open; a broadcast from id 1 attempts ids 1 and 2 whether or not delivery
to id 2 fails. -/
theorem fanout_completeness_witness :
    (ClientConn.mk 1 "u1"
        ∈ [ClientConn.mk 1 "u1", ClientConn.mk 2 "u2", ClientConn.mk 3 "u3"]
      ∧ (fun s => if s = 3 then 3 else 1) (ClientConn.mk 1 "u1").sid = WS_OPEN)
    ∧ ((fanOutResults [ClientConn.mk 1 "u1", ClientConn.mk 2 "u2", ClientConn.mk 3 "u3"]
          (fun s => if s = 3 then 3 else 1) (fun s => s == 2) "u1" "hi").length
        = ([ClientConn.mk 1 "u1", ClientConn.mk 2 "u2", ClientConn.mk 3 "u3"].filter
            (fun c => (fun s => if s = 3 then 3 else 1) c.sid == WS_OPEN)).length
      ∧ (ClientConn.mk 1 "u1").sid
          ∈ (fanOutResults [ClientConn.mk 1 "u1", ClientConn.mk 2 "u2", ClientConn.mk 3 "u3"]
              (fun s => if s = 3 then 3 else 1) (fun s => s == 2) "u1" "hi").map
              (fun r => r.1.target)
      ∧ (fanOutResults [ClientConn.mk 1 "u1", ClientConn.mk 2 "u2", ClientConn.mk 3 "u3"]
            (fun s => if s = 3 then 3 else 1) (fun s => s == 2) "u1" "hi").map Prod.fst
          = (fanOutResults [ClientConn.mk 1 "u1", ClientConn.mk 2 "u2", ClientConn.mk 3 "u3"]
              (fun s => if s = 3 then 3 else 1) (fun _ => false) "u1" "hi").map Prod.fst) :=
  ⟨⟨by decide, by decide⟩,
    fanout_completeness [ClientConn.mk 1 "u1", ClientConn.mk 2 "u2", ClientConn.mk 3 "u3"]
      (fun s => if s = 3 then 3 else 1) (fun s => s == 2) (fun _ => false)
      (ClientConn.mk 1 "u1") "hi" (by decide) (by decide)⟩

/-- Helper: `find?` skips a prefix on which the predicate is false. -/
theorem find?_of_forall_false {α : Type} (p : α → Bool) (l1 l2 : List α)
    (h : ∀ a ∈ l1, p a = false) : (l1 ++ l2).find? p = l2.find? p := by
  induction l1 with
  | nil => simp
  | cons a l ih =>
    have ha : p a = false := h a (List.mem_cons_self a l)
    simp only [List.cons_append, List.find?, ha]
    exact ih (fun b hb => h b (List.mem_cons_of_mem a hb))

/-- C8: after a connection is admitted for verified subject `u`, every
delivery made by broadcasting a message from that connection carries the
JSON serialization of the object with `user` equal to the subject id fixed
at admission and `message` equal to the inbound message body as text. -/
theorem broadcast_payload_shape (verify : String → VerifyResult)
    (st : List ClientConn) (sid : Nat) (u : Identity) (token msg : String)
    (ready : Nat → Nat)
    (htok : token ≠ "") (hvr : verify token = VerifyResult.ok u)
    (hfresh : ∀ c ∈ st, c.sid ≠ sid) :
    ∀ d ∈ (wsStep ready (wsStep ready st (WsEvent.connect sid (some token) verify)).1
            (WsEvent.message sid msg)).2,
      d.payload = stringifyFrame u.sub msg := by
  have hst1 : (wsStep ready st (WsEvent.connect sid (some token) verify)).1
      = st ++ [ClientConn.mk sid u.sub] := by
    simp [wsStep, handleConnection_ok_eq verify st sid token u htok hvr hfresh]
  rw [hst1]
  have hfind : (st ++ [ClientConn.mk sid u.sub]).find? (fun c => c.sid == sid)
      = some (ClientConn.mk sid u.sub) := by
    rw [find?_of_forall_false _ st _ (fun c hc => by simp [hfresh c hc])]
    simp [List.find?]
  simp only [wsStep, hfind]
  intro d hd
  simp only [fanOut, List.mem_map] at hd
  rcases hd with ⟨c, _, rfl⟩
  rfl

/-- C8 witness: subject "u1" is admitted on socket 5 next to an existing
client and broadcasts "hi"; every delivery carries the serialized frame. -/
theorem broadcast_payload_shape_witness :
    ("tok5" ≠ ""
      ∧ (fun _ : String => VerifyResult.ok (Identity.mk "u1")) "tok5"
          = VerifyResult.ok (Identity.mk "u1")
      ∧ (∀ c ∈ [ClientConn.mk 1 "u0"], c.sid ≠ 5))
    ∧ (∀ d ∈ (wsStep (fun _ => 1)
          (wsStep (fun _ => 1) [ClientConn.mk 1 "u0"]
            (WsEvent.connect 5 (some "tok5")
              (fun _ => VerifyResult.ok (Identity.mk "u1")))).1
          (WsEvent.message 5 "hi")).2,
        d.payload = stringifyFrame "u1" "hi") :=
  ⟨⟨by decide, rfl, by simp⟩,
    broadcast_payload_shape (fun _ => VerifyResult.ok (Identity.mk "u1"))
      [ClientConn.mk 1 "u0"] 5 (Identity.mk "u1") "tok5" "hi" (fun _ => 1)
      (by decide) rfl (by simp)⟩

/-- C6: events run to completion, so broadcasts fan out over the registry
as it is at invocation time: an eviction arriving while a broadcast is in
progress is serialized after it — the deliveries of the message event are
exactly the fan-out over the pre-event registry, the connection evicted by
the next event is still attempted (never skipped inconsistently), the run
is a total function (no raise, no iteration-invalidation fault), and the
eviction takes effect only for later broadcasts. -/
theorem broadcast_snapshot_isolation (ready : Nat → Nat) (st : List ClientConn)
    (origin victim : ClientConn) (msg : String)
    (ho : st.find? (fun c => c.sid == origin.sid) = some origin)
    (hv : victim ∈ st) (hvopen : ready victim.sid = WS_OPEN) :
    (wsRun ready st [WsEvent.message origin.sid msg, WsEvent.closeEv victim.sid]).2
      = [fanOut st ready origin.sub msg, []]
    ∧ victim.sid ∈ (fanOut st ready origin.sub msg).map (fun d => d.target)
    ∧ (wsRun ready st [WsEvent.message origin.sid msg, WsEvent.closeEv victim.sid]).1
      = evict st victim.sid := by
  refine ⟨?_, ?_, ?_⟩
  · simp [wsRun, wsStep, ho]
  · have hvf : victim ∈ st.filter (fun c => ready c.sid == WS_OPEN) :=
      List.mem_filter.mpr ⟨hv, by simp [hvopen]⟩
    simp only [fanOut, List.map_map]
    exact List.mem_map.mpr ⟨victim, hvf, rfl⟩
  · simp [wsRun, wsStep, ho]

/-- C6 witness: two open clients; client 1 broadcasts while client 2 is
evicted by the immediately following close event. -/
theorem broadcast_snapshot_isolation_witness :
    (([ClientConn.mk 1 "u1", ClientConn.mk 2 "u2"].find?
        (fun c => c.sid == (ClientConn.mk 1 "u1").sid) = some (ClientConn.mk 1 "u1"))
      ∧ ClientConn.mk 2 "u2" ∈ [ClientConn.mk 1 "u1", ClientConn.mk 2 "u2"]
      ∧ (fun _ : Nat => 1) (ClientConn.mk 2 "u2").sid = WS_OPEN)
    ∧ ((wsRun (fun _ => 1) [ClientConn.mk 1 "u1", ClientConn.mk 2 "u2"]
          [WsEvent.message 1 "hi", WsEvent.closeEv 2]).2
        = [fanOut [ClientConn.mk 1 "u1", ClientConn.mk 2 "u2"] (fun _ => 1) "u1" "hi", []]
      ∧ (ClientConn.mk 2 "u2").sid
          ∈ (fanOut [ClientConn.mk 1 "u1", ClientConn.mk 2 "u2"] (fun _ => 1) "u1" "hi").map
              (fun d => d.target)
      ∧ (wsRun (fun _ => 1) [ClientConn.mk 1 "u1", ClientConn.mk 2 "u2"]
          [WsEvent.message 1 "hi", WsEvent.closeEv 2]).1
        = evict [ClientConn.mk 1 "u1", ClientConn.mk 2 "u2"] 2) :=
  ⟨⟨by decide, by decide, by decide⟩,
    broadcast_snapshot_isolation (fun _ => 1) [ClientConn.mk 1 "u1", ClientConn.mk 2 "u2"]
      (ClientConn.mk 1 "u1") (ClientConn.mk 2 "u2") "hi" (by decide) (by decide) (by decide)⟩

/-- C5 counterexample: on an admitted connection whose message-handler
body throws, the client receives zero error frames — not exactly one —
because the catch block only logs; the claimed frame delivery does not
happen on this path. -/
theorem message_error_frame_counterexample :
    (onMessage true [ClientConn.mk 1 "u1"] (fun _ => 1) "u1" "hi").errorFrames = []
    ∧ (onMessage true [ClientConn.mk 1 "u1"] (fun _ => 1) "u1" "hi").errorFrames.length
        ≠ 1 :=
  ⟨rfl, by decide⟩

/-- C5 (amended): an error raised while handling a per-event message on
an admitted connection is caught locally and is not fatal — the client
set is untouched, the socket is not closed, and a subsequent message
broadcasts normally — but the catch only logs, so no error frame reaches
the client from that path. The normalized error frame is produced only by
the socket error-event listener, for errors delivered as socket "error"
events: it emits exactly one frame carrying
message/errorCode/status/socketId/requestId on the reserved "app:error"
channel (distinct from every ordinary application event), with an
unrecognized error getting the generic code "SOCKET_ERROR" and status
500, a recognized AppError keeping its own code and status, and it never
closes the connection. -/
theorem error_frame_normalized (socketId requestId m ec : String) (stc : Nat)
    (clients : List ClientConn) (ready : Nat → Nat) (sub raw : String) :
    onMessage true clients ready sub raw = MessageEffect.mk [] clients [] false
    ∧ onMessage false clients ready sub raw
        = MessageEffect.mk (fanOut clients ready sub raw) clients [] false
    ∧ onSocketErrorEvent socketId requestId (SocketError.generic m)
      = ([ErrorFrame.mk "app:error" "Internal server error" "SOCKET_ERROR" 500
            socketId requestId], false)
    ∧ onSocketErrorEvent socketId requestId (SocketError.app m ec stc)
      = ([ErrorFrame.mk "app:error" m ec stc socketId requestId], false)
    ∧ (∀ e, (onSocketErrorEvent socketId requestId e).1.length = 1
        ∧ (onSocketErrorEvent socketId requestId e).2 = false
        ∧ ((onSocketErrorEvent socketId requestId e).1.map (fun f => f.channel))
            = ["app:error"])
    ∧ ("app:error" ≠ "customResponse" ∧ "app:error" ≠ "customEvent"
        ∧ "app:error" ≠ "message") := by
  refine ⟨rfl, rfl, rfl, rfl, ?_, ⟨by decide, by decide, by decide⟩⟩
  intro e
  cases e <;> exact ⟨rfl, rfl, rfl⟩

/-- Helper: the request id returned by the middleware is always the
derived one, on every path. -/
theorem socketAuth_snd (verify : String → VerifyResult) (xr : Option String)
    (ck : Option (List Char)) (fresh socketId : String) :
    (socketAuth verify xr ck fresh socketId).2 = deriveRequestId xr fresh := by
  cases ck with
  | none => rfl
  | some hdr =>
    cases htk : tokenForVerifier hdr with
    | none => simp [socketAuth, htk]
    | some t =>
      cases hv : verify t with
      | invalid => simp [socketAuth, htk, hv]
      | errored => simp [socketAuth, htk, hv]
      | ok u => simp [socketAuth, htk, hv]

/-- C9 counterexample: an x-request-id header that is present but carries
the empty string is not used — the JS `||` tests truthiness, not
presence, so the middleware substitutes the freshly generated id. -/
theorem correlation_header_present_not_used :
    deriveRequestId (some "") "srv-fresh-1" = "srv-fresh-1"
    ∧ deriveRequestId (some "") "srv-fresh-1" ≠ "" :=
  ⟨rfl, by decide⟩

/-- C9 (amended): for every connection attempt a correlation identifier is
determined at admission time — the inbound x-request-id header value when
present and non-empty, a freshly generated identifier otherwise — and for
an admitted connection that identifier is attached to the socket, carried
by the connection-scope log context, and carried by every error frame for
that connection. -/
theorem correlation_id_admission (verify : String → VerifyResult)
    (xr : Option String) (ck : Option (List Char)) (fresh socketId : String)
    (e : SocketError) (s : AuthedSocket)
    (hok : (socketAuth verify xr ck fresh socketId).1 = SocketAuthResult.authed s) :
    s.requestId = deriveRequestId xr fresh
    ∧ (∀ h, xr = some h → h ≠ "" → s.requestId = h)
    ∧ (xr = none → s.requestId = fresh)
    ∧ (socketAuth verify xr ck fresh socketId).2 = deriveRequestId xr fresh
    ∧ (connectionLogCtx s).requestId = s.requestId
    ∧ (connErrorFrame s e).requestId = s.requestId := by
  have hreq : s.requestId = deriveRequestId xr fresh := by
    cases ck with
    | none => simp [socketAuth] at hok
    | some hdr =>
      cases htk : tokenForVerifier hdr with
      | none => simp [socketAuth, htk] at hok
      | some t =>
        cases hv : verify t with
        | invalid => simp [socketAuth, htk, hv] at hok
        | errored => simp [socketAuth, htk, hv] at hok
        | ok u =>
          simp only [socketAuth, htk, hv] at hok
          injection hok with hok2
          rw [← hok2]
  refine ⟨hreq, ?_, ?_, socketAuth_snd verify xr ck fresh socketId, rfl, ?_⟩
  · intro h hx hne
    rw [hreq, hx]
    simp [deriveRequestId, hne]
  · intro hx
    rw [hreq, hx]
    rfl
  · cases e <;> rfl

/-- C9 witness: a handshake with header x-request-id "req-1" and a valid
authToken cookie is admitted with request id "req-1", echoed into the log
context and error frames. -/
theorem correlation_id_admission_witness :
    ((socketAuth (fun _ => VerifyResult.ok (Identity.mk "u1")) (some "req-1")
        (some ("authToken=tok".data)) "gen-9" "s1").1
      = SocketAuthResult.authed (AuthedSocket.mk "s1" "req-1" "u1"))
    ∧ ((AuthedSocket.mk "s1" "req-1" "u1").requestId
        = deriveRequestId (some "req-1") "gen-9"
      ∧ (∀ h, (some "req-1" : Option String) = some h → h ≠ ""
          → (AuthedSocket.mk "s1" "req-1" "u1").requestId = h)
      ∧ ((some "req-1" : Option String) = none
          → (AuthedSocket.mk "s1" "req-1" "u1").requestId = "gen-9")
      ∧ (socketAuth (fun _ => VerifyResult.ok (Identity.mk "u1")) (some "req-1")
          (some ("authToken=tok".data)) "gen-9" "s1").2
            = deriveRequestId (some "req-1") "gen-9"
      ∧ (connectionLogCtx (AuthedSocket.mk "s1" "req-1" "u1")).requestId
          = (AuthedSocket.mk "s1" "req-1" "u1").requestId
      ∧ (connErrorFrame (AuthedSocket.mk "s1" "req-1" "u1")
          (SocketError.generic "boom")).requestId
          = (AuthedSocket.mk "s1" "req-1" "u1").requestId) :=
  ⟨by decide,
    correlation_id_admission (fun _ => VerifyResult.ok (Identity.mk "u1")) (some "req-1")
      (some ("authToken=tok".data)) "gen-9" "s1" (SocketError.generic "boom")
      (AuthedSocket.mk "s1" "req-1" "u1") (by decide)⟩

/-- Helper: any two sufficient fuels give the same split. -/
theorem jsSplitFuel_congr (sep : List Char) :
    ∀ (f : Nat) (s : List Char) (g : Nat), s.length ≤ f → s.length ≤ g →
      jsSplitFuel sep f s = jsSplitFuel sep g s := by
  intro f
  induction f with
  | zero =>
    intro s g hf hg
    have hs : s = [] := List.eq_nil_of_length_eq_zero (Nat.le_zero.mp hf)
    subst hs
    cases g <;> rfl
  | succ f ih =>
    intro s g hf hg
    cases s with
    | nil => cases g <;> rfl
    | cons c rest =>
      cases g with
      | zero => simp at hg
      | succ g2 =>
        simp only [jsSplitFuel]
        by_cases hcond : sep ≠ [] ∧ sep.isPrefixOf (c :: rest)
        · rw [if_pos hcond, if_pos hcond]
          have hsep : 0 < sep.length := List.length_pos.mpr hcond.1
          simp only [List.length_cons] at hf hg
          have hd : ((c :: rest).drop sep.length).length ≤ f := by
            simp only [List.length_drop, List.length_cons]
            omega
          have hd2 : ((c :: rest).drop sep.length).length ≤ g2 := by
            simp only [List.length_drop, List.length_cons]
            omega
          rw [ih _ g2 hd hd2]
        · rw [if_neg hcond, if_neg hcond]
          simp only [List.length_cons] at hf hg
          rw [ih rest g2 (by omega) (by omega)]

/-- Helper: unfolding of `jsSplit` at a separator occurrence. -/
theorem jsSplit_cons_pos (sep : List Char) (c : Char) (rest : List Char)
    (h1 : sep ≠ []) (h2 : sep.isPrefixOf (c :: rest)) :
    jsSplit sep (c :: rest) = [] :: jsSplit sep ((c :: rest).drop sep.length) := by
  unfold jsSplit
  simp only [List.length_cons, jsSplitFuel, if_pos (And.intro h1 h2)]
  congr 1
  apply jsSplitFuel_congr
  · simp only [List.length_drop, List.length_cons]
    have := List.length_pos.mpr h1
    omega
  · exact Nat.le_refl _

/-- Helper: unfolding of `jsSplit` away from a separator occurrence. -/
theorem jsSplit_cons_neg (sep : List Char) (c : Char) (rest : List Char)
    (h : ¬(sep ≠ [] ∧ sep.isPrefixOf (c :: rest))) :
    jsSplit sep (c :: rest) = jsConsHead c (jsSplit sep rest) := by
  unfold jsSplit
  simp only [List.length_cons, jsSplitFuel, if_neg h]

/-- Helper: `jsConsHead` never returns the empty list. -/
theorem jsConsHead_ne_nil (c : Char) (ls : List (List Char)) : jsConsHead c ls ≠ [] := by
  cases ls <;> simp [jsConsHead]

/-- Helper: a split result is never the empty list. -/
theorem jsSplit_ne_nil (sep : List Char) (s : List Char) : jsSplit sep s ≠ [] := by
  cases s with
  | nil => simp [jsSplit, jsSplitFuel]
  | cons c rest =>
    by_cases h : sep ≠ [] ∧ sep.isPrefixOf (c :: rest)
    · rw [jsSplit_cons_pos sep c rest h.1 h.2]
      simp
    · rw [jsSplit_cons_neg sep c rest h]
      exact jsConsHead_ne_nil c _

/-- Helper: a one-character separator matches at a position iff it equals
the character there. -/
theorem isPrefixOf_single (ch c : Char) (rest : List Char) :
    [ch].isPrefixOf (c :: rest) = (ch == c) := by
  simp [List.isPrefixOf]

/-- Helper: the "; " separator does not match where the character is not
a semicolon. -/
theorem isPrefixOf_semi (c : Char) (rest : List Char) (h : (';' : Char) ≠ c) :
    [';', ' '].isPrefixOf (c :: rest) = false := by
  have hb : ((';' : Char) == c) = false := beq_eq_false_iff_ne.mpr h
  simp [List.isPrefixOf, hb]

/-- Helper: splitting on an absent character returns the whole string. -/
theorem jsSplit_single_of_not_mem (ch : Char) (s : List Char) (h : ch ∉ s) :
    jsSplit [ch] s = [s] := by
  induction s with
  | nil => rfl
  | cons c rest ih =>
    have hcc : ch ≠ c := fun hh => h (by rw [hh]; exact List.mem_cons_self c rest)
    rw [jsSplit_cons_neg]
    · rw [ih (fun hm => h (List.mem_cons_of_mem c hm))]
      rfl
    · intro hcond
      have h2 := hcond.2
      rw [isPrefixOf_single] at h2
      exact hcc (beq_iff_eq.mp h2)

/-- Helper: splitting a semicolon-free string on "; " returns it whole. -/
theorem jsSplit_semi_of_not_mem (s : List Char) (h : (';' : Char) ∉ s) :
    jsSplit [';', ' '] s = [s] := by
  induction s with
  | nil => rfl
  | cons c rest ih =>
    have hcc : (';' : Char) ≠ c := fun hh => h (by rw [hh]; exact List.mem_cons_self c rest)
    rw [jsSplit_cons_neg]
    · rw [ih (fun hm => h (List.mem_cons_of_mem c hm))]
      rfl
    · intro hcond
      have h2 := hcond.2
      rw [isPrefixOf_semi c rest hcc] at h2
      simp at h2

/-- Helper: splitting at the first occurrence of a one-character
separator. -/
theorem jsSplit_char_append (ch : Char) (x y : List Char) (hx : ch ∉ x) :
    jsSplit [ch] (x ++ ch :: y) = x :: jsSplit [ch] y := by
  induction x with
  | nil =>
    simp only [List.nil_append]
    rw [jsSplit_cons_pos [ch] ch y (by simp) (by simp [isPrefixOf_single])]
    simp
  | cons c x2 ih =>
    have hcc : ch ≠ c := fun hh => hx (by rw [hh]; exact List.mem_cons_self c x2)
    simp only [List.cons_append]
    rw [jsSplit_cons_neg]
    · rw [ih (fun hm => hx (List.mem_cons_of_mem c hm))]
      rfl
    · intro hcond
      have h2 := hcond.2
      rw [isPrefixOf_single] at h2
      exact hcc (beq_iff_eq.mp h2)

/-- Helper: splitting at the first "; " occurrence. -/
theorem jsSplit_semi_append (x y : List Char) (hx : (';' : Char) ∉ x) :
    jsSplit [';', ' '] (x ++ ';' :: ' ' :: y) = x :: jsSplit [';', ' '] y := by
  induction x with
  | nil =>
    simp only [List.nil_append]
    rw [jsSplit_cons_pos [';', ' '] ';' (' ' :: y) (by simp) (by simp [List.isPrefixOf])]
    simp
  | cons c x2 ih =>
    have hcc : (';' : Char) ≠ c := fun hh => hx (by rw [hh]; exact List.mem_cons_self c x2)
    simp only [List.cons_append]
    rw [jsSplit_cons_neg]
    · rw [ih (fun hm => hx (List.mem_cons_of_mem c hm))]
      rfl
    · intro hcond
      have h2 := hcond.2
      rw [isPrefixOf_semi c _ hcc] at h2
      simp at h2

/-- Helper: the first piece of a one-character split is the maximal
separator-free prefix. -/
theorem jsSplit_head (ch : Char) (s : List Char) :
    (jsSplit [ch] s).head? = some (s.takeWhile (fun c => c != ch)) := by
  induction s with
  | nil => rfl
  | cons c rest ih =>
    by_cases hc : ch = c
    · subst hc
      rw [jsSplit_cons_pos [ch] ch rest (by simp) (by simp [isPrefixOf_single])]
      simp [List.takeWhile_cons]
    · rw [jsSplit_cons_neg]
      · cases hsp : jsSplit [ch] rest with
        | nil => exact absurd hsp (jsSplit_ne_nil [ch] rest)
        | cons r rs =>
          rw [hsp] at ih
          simp only [List.head?] at ih
          injection ih with ih2
          simp only [jsConsHead, List.head?, List.takeWhile_cons]
          have hbne : (c != ch) = true := bne_iff_ne.mpr (fun hh => hc hh.symm)
          rw [hbne]
          simp [ih2]
      · intro hcond
        have h2 := hcond.2
        rw [isPrefixOf_single] at h2
        exact hc (beq_iff_eq.mp h2)

/-- Helper: a rendered pair of semicolon-free name and value is
semicolon-free. -/
theorem semi_not_mem_renderPair (q : String × String)
    (h1 : (';' : Char) ∉ q.1.data) (h2 : (';' : Char) ∉ q.2.data) :
    (';' : Char) ∉ renderCookiePair q := by
  unfold renderCookiePair
  intro hm
  rcases List.mem_append.mp hm with hm1 | hm2
  · exact h1 hm1
  · rcases List.mem_cons.mp hm2 with he | hm3
    · exact absurd he (by decide)
    · exact h2 hm3

/-- Helper: splitting a rendered cookie header on "; " recovers the
rendered pairs. -/
theorem jsSplit_renderCookies (ps : List (String × String))
    (hps : ps ≠ [])
    (hsemi : ∀ q ∈ ps, (';' : Char) ∉ q.1.data ∧ (';' : Char) ∉ q.2.data) :
    jsSplit [';', ' '] (renderCookies ps) = ps.map renderCookiePair := by
  induction ps with
  | nil => exact absurd rfl hps
  | cons p tail ih =>
    cases tail with
    | nil =>
      have h := hsemi p (List.mem_cons_self p [])
      simp only [renderCookies, List.map]
      exact jsSplit_semi_of_not_mem _ (semi_not_mem_renderPair p h.1 h.2)
    | cons q ts =>
      have hp := hsemi p (List.mem_cons_self p (q :: ts))
      simp only [renderCookies]
      rw [jsSplit_semi_append _ _ (semi_not_mem_renderPair p hp.1 hp.2)]
      rw [ih (by simp) (fun r hr => hsemi r (List.mem_cons_of_mem p hr))]
      rfl

/-- Helper: splitting a rendered pair on "=" puts the name first. -/
theorem entry_split (n w : String) (hn : ('=' : Char) ∉ n.data) :
    jsSplit ['='] (renderCookiePair (n, w)) = n.data :: jsSplit ['='] w.data :=
  jsSplit_char_append '=' n.data w.data hn

/-- Helper: the fromEntries key of a rendered pair is its name. -/
theorem entry_key (n w : String) (hn : ('=' : Char) ∉ n.data) :
    (jsSplit ['='] (renderCookiePair (n, w))).headD [] = n.data := by
  rw [entry_split n w hn]
  rfl

/-- Helper: the fromEntries value of a rendered pair is the value's
maximal "="-free prefix. -/
theorem entry_value (n w : String) (hn : ('=' : Char) ∉ n.data) :
    (jsSplit ['='] (renderCookiePair (n, w)))[1]?
      = some (w.data.takeWhile (fun c => c != '=')) := by
  rw [entry_split n w hn]
  cases hW : jsSplit ['='] w.data with
  | nil => exact absurd hW (jsSplit_ne_nil _ _)
  | cons r rs =>
    have hh := jsSplit_head '=' w.data
    rw [hW] at hh
    simp only [List.head?] at hh
    injection hh with hh2
    simp [hh2]

/-- Helper: distinct strings have distinct character lists. -/
theorem string_data_ne {a b : String} (h : a ≠ b) : a.data ≠ b.data := by
  intro hd
  apply h
  cases a
  cases b
  exact congrArg String.mk hd

/-- C10: with the split-based cookie parsing of the socket.io path, a
handshake whose authToken cookie value itself contains "=" yields only the
value's maximal "="-free prefix as the parsed token: the prefix (when
non-empty) is what reaches the token verifier, and the verifier never
receives the full cookie value. The header is an arbitrary rendered cookie
list around the authToken pair (names and values semicolon- and space-safe
per the cookie grammar, names "="-free, no later authToken override). -/
theorem cookie_split_truncates_token
    (l1 l2 : List (String × String)) (v : String)
    (hsemi : ∀ q ∈ l1 ++ ("authToken", v) :: l2,
        (';' : Char) ∉ q.1.data ∧ (';' : Char) ∉ q.2.data)
    (heqn : ∀ q ∈ l1 ++ ("authToken", v) :: l2, ('=' : Char) ∉ q.1.data)
    (hl2 : ∀ q ∈ l2, q.1 ≠ "authToken")
    (hv : ('=' : Char) ∈ v.data) :
    parseCookieGet (renderCookies (l1 ++ ("authToken", v) :: l2)) "authToken".data
      = some (v.data.takeWhile (fun c => c != '='))
    ∧ (∀ t, tokenForVerifier (renderCookies (l1 ++ ("authToken", v) :: l2)) = some t
        → t.data ≠ v.data)
    ∧ (v.data.takeWhile (fun c => c != '=') ≠ []
        → tokenForVerifier (renderCookies (l1 ++ ("authToken", v) :: l2))
            = some (String.mk (v.data.takeWhile (fun c => c != '=')))) := by
  have hrender : jsSplit [';', ' '] (renderCookies (l1 ++ ("authToken", v) :: l2))
      = (l1 ++ ("authToken", v) :: l2).map renderCookiePair :=
    jsSplit_renderCookies _ (by simp) hsemi
  have hfalse : ∀ e ∈ (l2.map (jsSplit ['='] ∘ renderCookiePair)).reverse,
      (e.headD [] == "authToken".data) = false := by
    intro e he
    rw [List.mem_reverse, List.mem_map] at he
    obtain ⟨q, hq, hqe⟩ := he
    have hq2 : q ∈ l1 ++ ("authToken", v) :: l2 :=
      List.mem_append.mpr (Or.inr (List.mem_cons_of_mem _ hq))
    have hkey : e.headD [] = q.1.data := by
      rw [← hqe]
      show (jsSplit ['='] (renderCookiePair q)).headD [] = q.1.data
      have hqpair : ((q.1, q.2) : String × String) = q := rfl
      rw [← hqpair]
      exact entry_key q.1 q.2 (heqn q hq2)
    rw [hkey]
    exact beq_eq_false_iff_ne.mpr (string_data_ne (hl2 q hq))
  have hparse : parseCookieGet (renderCookies (l1 ++ ("authToken", v) :: l2))
      "authToken".data = some (v.data.takeWhile (fun c => c != '=')) := by
    unfold parseCookieGet fromEntriesGet
    rw [hrender, List.map_map]
    rw [List.map_append, List.map_cons, List.reverse_append, List.reverse_cons,
        List.append_assoc]
    rw [find?_of_forall_false _ _ _ hfalse, List.singleton_append]
    have hpredm : (((jsSplit ['='] ∘ renderCookiePair) ("authToken", v)).headD []
        == "authToken".data) = true := by
      show ((jsSplit ['='] (renderCookiePair ("authToken", v))).headD []
        == "authToken".data) = true
      rw [entry_key "authToken" v (by decide)]
      exact beq_self_eq_true _
    have hfind : List.find? (fun a => a.headD [] == "authToken".data)
        ((jsSplit ['='] ∘ renderCookiePair) ("authToken", v)
          :: (List.map (jsSplit ['='] ∘ renderCookiePair) l1).reverse)
        = some ((jsSplit ['='] ∘ renderCookiePair) ("authToken", v)) :=
      List.find?_cons_of_pos _ hpredm
    rw [hfind]
    exact entry_value "authToken" v (by decide)
  have hnomem : ('=' : Char) ∉ v.data.takeWhile (fun c => c != '=') := by
    intro hmem
    have := List.mem_takeWhile_imp hmem
    simp at this
  have htw_ne : v.data.takeWhile (fun c => c != '=') ≠ v.data := by
    intro heq
    rw [heq] at hnomem
    exact hnomem hv
  refine ⟨hparse, ?_, ?_⟩
  · intro t ht
    unfold tokenForVerifier at ht
    rw [hparse] at ht
    by_cases hemp : (v.data.takeWhile (fun c => c != '=')).isEmpty
    · simp [hemp] at ht
    · simp only [hemp, Bool.false_eq_true, if_neg, if_false] at ht
      injection ht with ht2
      rw [← ht2]
      exact htw_ne
  · intro hne2
    unfold tokenForVerifier
    rw [hparse]
    have hemp : ¬ (v.data.takeWhile (fun c => c != '=')).isEmpty := by
      rw [List.isEmpty_iff]
      exact hne2
    simp [hemp]

/-- C10 witness: a lone cookie authToken=abc=def; the parsed token is
"abc", which is what the verifier sees — never "abc=def". -/
theorem cookie_split_truncates_token_witness :
    ((∀ q ∈ ([] : List (String × String)) ++ ("authToken", "abc=def") :: [],
        (';' : Char) ∉ q.1.data ∧ (';' : Char) ∉ q.2.data)
      ∧ (∀ q ∈ ([] : List (String × String)) ++ ("authToken", "abc=def") :: [],
          ('=' : Char) ∉ q.1.data)
      ∧ (∀ q ∈ ([] : List (String × String)), q.1 ≠ "authToken")
      ∧ ('=' : Char) ∈ "abc=def".data)
    ∧ (parseCookieGet (renderCookies (([] : List (String × String))
          ++ ("authToken", "abc=def") :: [])) "authToken".data
        = some ("abc=def".data.takeWhile (fun c => c != '='))
      ∧ (∀ t, tokenForVerifier (renderCookies (([] : List (String × String))
            ++ ("authToken", "abc=def") :: [])) = some t → t.data ≠ "abc=def".data)
      ∧ ("abc=def".data.takeWhile (fun c => c != '=') ≠ []
          → tokenForVerifier (renderCookies (([] : List (String × String))
              ++ ("authToken", "abc=def") :: []))
            = some (String.mk ("abc=def".data.takeWhile (fun c => c != '='))))) :=
  ⟨⟨by decide, by decide, by decide, by decide⟩,
    cookie_split_truncates_token [] [] "abc=def" (by decide) (by decide) (by decide)
      (by decide)⟩

end WsGateway
